import Mathlib

/-!
Verification development for the Voxel Agent panel plugin
(src/__init__.py): a shallow embedding of the guardrail classifier,
the MCP client wrapper, the streaming tool loop, and the pending
operation registry, together with theorems about the frozen claims.
-/

set_option maxRecDepth 10000

/-! ## JSON values and Python-style serialization

Tool arguments are JSON objects.  The guardrail serializes them with
json.dumps (lowercased) before substring scanning, so we embed
json.dumps faithfully: default separators, ensure_ascii escaping.
-/

/-- JSON value, the shape of tool arguments passed to the guardrail. -/
inductive Json where
  | str (s : String)
  | num (n : Int)
  | bool (b : Bool)
  | null
  | arr (xs : List Json)
  | obj (fields : List (String × Json))

/-- Tool arguments: an ordered JSON object body, mirroring a Python
dict with insertion order. -/
abbrev ToolInput := List (String × Json)

/-- Lowercase hex digit, as produced by json.dumps \uXXXX escapes. -/
def hexDigit (n : Nat) : Char :=
  if n % 16 < 10 then Char.ofNat (48 + n % 16) else Char.ofNat (87 + n % 16)

/-- Escape of a code point as a \uXXXX sequence. -/
def uEscape (n : Nat) : String :=
  "\\u" ++ String.mk [hexDigit (n / 4096), hexDigit (n / 256), hexDigit (n / 16), hexDigit n]

/-- Escape of one character inside a JSON string literal, following the
Python json encoder with ensure_ascii (escape everything outside
0x20..0x7e, shortcuts for the usual control characters). -/
def jsonEscapeChar (c : Char) : String :=
  if c = '"' then "\\\""
  else if c = '\\' then "\\\\"
  else if c = '\n' then "\\n"
  else if c = '\t' then "\\t"
  else if c = '\r' then "\\r"
  else if c.toNat = 8 then "\\b"
  else if c.toNat = 12 then "\\f"
  else if 32 ≤ c.toNat ∧ c.toNat ≤ 126 then String.mk [c]
  else if c.toNat < 65536 then uEscape c.toNat
  else
    uEscape (55296 + (c.toNat - 65536) / 1024) ++ uEscape (56320 + (c.toNat - 65536) % 1024)

/-- Quoted JSON string literal. -/
def jsonQuote (s : String) : String :=
  "\"" ++ String.join (s.data.map jsonEscapeChar) ++ "\""

mutual

/-- Embedding of Python json.dumps with the default separators. -/
def jsonDumps : Json → String
  | .str s => jsonQuote s
  | .num n => toString n
  | .bool b => if b then "true" else "false"
  | .null => "null"
  | .arr xs => "[" ++ jsonDumpsArr xs ++ "]"
  | .obj fs => "\x7b" ++ jsonDumpsObj fs ++ "\x7d"

/-- Comma-joined dumps of an array body. -/
def jsonDumpsArr : List Json → String
  | [] => ""
  | [x] => jsonDumps x
  | x :: y :: rest => jsonDumps x ++ ", " ++ jsonDumpsArr (y :: rest)

/-- Comma-joined dumps of an object body. -/
def jsonDumpsObj : List (String × Json) → String
  | [] => ""
  | [(k, v)] => jsonQuote k ++ ": " ++ jsonDumps v
  | (k, v) :: p :: rest => jsonQuote k ++ ": " ++ jsonDumps v ++ ", " ++ jsonDumpsObj (p :: rest)

end

mutual

/-- Embedding of Python str() on a JSON-shaped value: identity on
strings, repr on containers. -/
def pyStr : Json → String
  | .str s => s
  | .num n => toString n
  | .bool b => if b then "True" else "False"
  | .null => "None"
  | .arr xs => "[" ++ pyReprArr xs ++ "]"
  | .obj fs => "\x7b" ++ pyReprObj fs ++ "\x7d"

/-- Embedding of Python repr() on a JSON-shaped value. -/
def pyRepr : Json → String
  | .str s => "'" ++ s ++ "'"
  | .num n => toString n
  | .bool b => if b then "True" else "False"
  | .null => "None"
  | .arr xs => "[" ++ pyReprArr xs ++ "]"
  | .obj fs => "\x7b" ++ pyReprObj fs ++ "\x7d"

/-- Comma-joined reprs of a list body. -/
def pyReprArr : List Json → String
  | [] => ""
  | [x] => pyRepr x
  | x :: y :: rest => pyRepr x ++ ", " ++ pyReprArr (y :: rest)

/-- Comma-joined reprs of a dict body. -/
def pyReprObj : List (String × Json) → String
  | [] => ""
  | [(k, v)] => "'" ++ k ++ "': " ++ pyRepr v
  | (k, v) :: p :: rest => "'" ++ k ++ "': " ++ pyRepr v ++ ", " ++ pyReprObj (p :: rest)

end

/-- Embedding of Python str.lower() (ASCII case mapping, which covers
every character the scanned patterns contain). -/
def pyLower (s : String) : String :=
  String.mk (s.data.map Char.toLower)

/-- Containment of a character list as a contiguous run of another. -/
def charsContain (p : List Char) : List Char → Bool
  | [] => p.isEmpty
  | c :: rest => p.isPrefixOf (c :: rest) || charsContain p rest

/-- Embedding of the Python substring test pat in hay. -/
def containsSub (hay pat : String) : Bool :=
  charsContain pat.data hay.data

/-- Embedding of Python dict.get on tool arguments. -/
def getJson (input : ToolInput) (k : String) : Option Json :=
  (input.find? (fun p => p.1 == k)).map (fun p => p.2)

/-! ## GuardrailLayer

Direct translation of the class-level constants and methods of
GuardrailLayer in src/__init__.py. -/

/-- Block-list of tool names (BLOCKED_TOOL_NAMES). -/
def GuardrailLayer.BLOCKED_TOOL_NAMES : List String :=
  ["execute_shell", "run_command", "system_call", "drop_collection",
   "drop_database", "raw_mongodb"]

/-- Dangerous argument substrings (BLOCKED_INPUT_SUBSTRINGS). -/
def GuardrailLayer.BLOCKED_INPUT_SUBSTRINGS : List String :=
  ["rm -rf", "drop table", "delete *", "; drop", "--drop"]

/-- Confirm-list of tool names (CONFIRM_TOOL_NAMES). -/
def GuardrailLayer.CONFIRM_TOOL_NAMES : List String :=
  ["close_app", "disable_plugin"]

/-- Mutating operator-name keywords (CONFIRM_OPERATOR_KEYWORDS). -/
def GuardrailLayer.CONFIRM_OPERATOR_KEYWORDS : List String :=
  ["delete", "remove", "clear", "overwrite", "truncate", "merge",
   "reset", "purge", "wipe"]

/-- Lowercased json.dumps of the tool arguments, the input_str the
guardrail scans (json.dumps(tool_input).lower()). -/
def GuardrailLayer.inputStr (tool_input : ToolInput) : String :=
  pyLower (jsonDumps (.obj tool_input))

/-- True when the serialized arguments contain a blocked pattern. -/
def GuardrailLayer.inputHit (tool_input : ToolInput) : Bool :=
  GuardrailLayer.BLOCKED_INPUT_SUBSTRINGS.any
    (fun pat => containsSub (GuardrailLayer.inputStr tool_input) pat)

/-- Lowercased operator name from the arguments
(str(tool_input.get("operator_name", "")).lower()). -/
def GuardrailLayer.opName (tool_input : ToolInput) : String :=
  pyLower (pyStr ((getJson tool_input "operator_name").getD (.str "")))

/-- True when the operator name contains a mutating keyword. -/
def GuardrailLayer.opKwHit (tool_input : ToolInput) : Bool :=
  GuardrailLayer.CONFIRM_OPERATOR_KEYWORDS.any
    (fun kw => containsSub (GuardrailLayer.opName tool_input) kw)

/-- Translation of GuardrailLayer.check: classify a tool call as
block, confirm, or allow. -/
def GuardrailLayer.check (tool_name : String) (tool_input : ToolInput) : String :=
  if GuardrailLayer.BLOCKED_TOOL_NAMES.contains tool_name then "block"
  else if GuardrailLayer.inputHit tool_input then "block"
  else if GuardrailLayer.CONFIRM_TOOL_NAMES.contains tool_name then "confirm"
  else if tool_name = "execute_operator" ∧ GuardrailLayer.opKwHit tool_input then "confirm"
  else "allow"

/-- Translation of GuardrailLayer.get_risk_level. -/
def GuardrailLayer.get_risk_level (tool_name : String) (tool_input : ToolInput) : String :=
  if GuardrailLayer.CONFIRM_TOOL_NAMES.contains tool_name then "high"
  else if (["delete", "drop", "purge", "wipe"] : List String).any
      (fun kw => containsSub (GuardrailLayer.opName tool_input) kw) then "high"
  else "medium"

/-- Translation of GuardrailLayer.get_block_reason. -/
def GuardrailLayer.get_block_reason (tool_name : String) (tool_input : ToolInput) : String :=
  if GuardrailLayer.BLOCKED_TOOL_NAMES.contains tool_name then
    "Tool '" ++ tool_name ++ "' is blocked by safety policy."
  else
    match GuardrailLayer.BLOCKED_INPUT_SUBSTRINGS.find?
        (fun pat => containsSub (GuardrailLayer.inputStr tool_input) pat) with
    | some pat => "Input contains blocked pattern: '" ++ pat ++ "'."
    | none => "Operation blocked by guardrails."

/-- Translation of GuardrailLayer.get_confirmation_message. -/
def GuardrailLayer.get_confirmation_message (tool_name : String) (tool_input : ToolInput) : String :=
  if tool_name = "close_app" then "This will close the FiftyOne App session."
  else if tool_name = "disable_plugin" then
    let plugin := pyStr ((getJson tool_input "plugin_name").getD (.str "unknown"))
    "This will disable plugin '" ++ plugin ++ "'."
  else if tool_name = "execute_operator" then
    let op := pyStr ((getJson tool_input "operator_name").getD (.str "unknown"))
    "This will execute the '" ++ op ++ "' operator, which may modify or delete data."
  else
    "The operation '" ++ tool_name ++ "' may modify data and cannot be easily undone."

/-! ## MCPClientManager.call_tool

Model of the MCP wrapper.  A call either fails to import the mcp
package, raises somewhere in the connection or execution (including the
worker-thread timeout), or succeeds with a list of content segments,
of which only those carrying a text attribute contribute. -/

/-- One content segment of an MCP tool result; only segments with a
text attribute are textual. -/
inductive Segment where
  | textSeg (s : String)
  | nonText

/-- Text of a segment, when it has a text attribute. -/
def Segment.textOf : Segment → Option String
  | .textSeg s => some s
  | .nonText => none

/-- Outcome of one underlying MCP round-trip, the behavior of the
external subprocess channel. -/
inductive CallOutcome where
  | importUnavailable
  | raised (msg : String)
  | ok (content : List Segment)

/-- Translation of MCPClientManager._async_call_tool: import failure
returns a fixed message, success joins the textual segments with
newlines falling back to the (no output) marker, and any other failure
propagates as an exception. -/
def MCPClientManager.async_call_tool (outcome : CallOutcome) : Except String String :=
  match outcome with
  | .importUnavailable => .ok "MCP package not available."
  | .raised e => .error e
  | .ok segs =>
      let joined := String.intercalate "\n" (segs.filterMap Segment.textOf)
      .ok (if joined.isEmpty then "(no output)" else joined)

/-- Translation of MCPClientManager.call_tool: run the async call and
absorb any exception into a textual error message. -/
def MCPClientManager.call_tool (name : String) (outcome : CallOutcome) : String :=
  match MCPClientManager.async_call_tool outcome with
  | .ok s => s
  | .error e => "Error calling " ++ name ++ ": " ++ e

/-! ## Transcript data model -/

/-- Content block of a transcript message, the dict shapes built by
_serialize_content_blocks and by the tool-result appends. -/
inductive CBlock where
  | text (s : String)
  | toolUse (id name : String) (input : ToolInput)
  | toolResult (tool_use_id : String) (content : String) (is_error : Bool)

/-- Message content: a plain string or a list of content blocks. -/
inductive MsgContent where
  | str (s : String)
  | blocks (bs : List CBlock)

/-- One transcript message. -/
structure Message where
  role : String
  content : MsgContent

/-- Content block of a final model message (the Anthropic SDK side):
text or a tool-use request. -/
inductive ABlock where
  | text (s : String)
  | toolUse (id name : String) (input : ToolInput)

/-- Translation of _serialize_content_blocks on final-message content. -/
def serializeBlocks (bs : List ABlock) : List CBlock :=
  bs.map fun b =>
    match b with
    | .text s => .text s
    | .toolUse i n inp => .toolUse i n inp

/-- Final message of one model stream: stop reason plus content. -/
structure FinalMsg where
  stop_reason : String
  content : List ABlock

/-- Raw event observed while the model response streams. -/
inductive RawEvent where
  | blockStartToolUse (id name : String)
  | deltaText (s : String)
  | other

/-- Caller-visible event, one frontend trigger of the plugin. -/
inductive Event where
  | streamMessageStart
  | streamChunk (delta : String)
  | toolCallStart (tool_id tool_name : String)
  | toolBlocked (tool_id tool_name reason : String)
  | confirmationRequired (pending_id tool_id tool_name : String)
      (tool_input : ToolInput) (risk human_description : String)
  | toolResult (tool_id tool_name result : String) (confirmed : Bool)
  | streamError (err : String)
  | streamComplete

/-- Trigger emitted for one raw stream event: tool_call_start on a
tool-use block start, stream_chunk on a text delta, nothing otherwise. -/
def rawToEvent : RawEvent → Option Event
  | .blockStartToolUse i n => some (.toolCallStart i n)
  | .deltaText s => some (.streamChunk s)
  | .other => none

/-! ## Pending-operation registry -/

/-- Pending operation stored when a Confirm decision suspends the loop
(the model-config fields of the source dict are carried opaquely and
omitted; the fields below are the ones later reads consult). -/
structure PendingOp where
  messages : List Message
  tool_id : String
  tool_name : String
  tool_input : ToolInput
  mcpConnected : Bool

/-- Process-wide registry of pending operations keyed by token,
the _pending_operations dict. -/
abbrev Registry := List (String × PendingOp)

/-- Lookup of a token in the registry. -/
def lookupReg (reg : Registry) (tok : String) : Option PendingOp :=
  (reg.find? (fun p => p.1 == tok)).map (fun p => p.2)

/-- Removal of a token from the registry. -/
def eraseReg (reg : Registry) (tok : String) : Registry :=
  reg.filter (fun p => !(p.1 == tok))

/-- Embedding of dict assignment _pending_operations[tok] = op. -/
def regSet (reg : Registry) (tok : String) (op : PendingOp) : Registry :=
  (tok, op) :: eraseReg reg tok

/-- Embedding of dict.pop(tok, None): the found value, if any, and the
resulting registry. -/
def popPending (reg : Registry) (tok : String) : Option PendingOp × Registry :=
  match lookupReg reg tok with
  | none => (none, reg)
  | some op => (some op, eraseReg reg tok)

/-! ## Streaming tool loop -/

/-- Environment of one loop invocation: the model-stream oracle per
round index, the tool-execution oracle (exceptions as .error), and
whether an MCP manager is configured. -/
structure LoopCfg where
  rounds : Nat → List RawEvent × Except String FinalMsg
  exec : String → ToolInput → Except String String
  mcpConnected : Bool

/-- Truncated preview of a tool result sent in the tool_result trigger
(tool_result[:2000] if len(tool_result) > 2000 else tool_result);
slicing is over characters, as in Python. -/
def previewOf (s : String) : String :=
  if s.length > 2000 then String.mk (s.data.take 2000) else s

/-- Fixed result content appended when no MCP manager is configured. -/
def mcpNotConnectedMsg : String :=
  "MCP server not connected. Configure an MCP server in Settings."

/-- Outcome of one loop invocation. -/
inductive Outcome where
  | done
  | errored
  | suspended
deriving DecidableEq

/-- Result of processing one batch of requested tool calls: emitted
events, collected tool_result blocks, registry insertions, executed
calls, guardrail consultations, and whether the batch paused for
confirmation. -/
structure BatchResult where
  events : List Event
  results : List CBlock
  inserts : List (String × PendingOp)
  execs : List (String × ToolInput)
  checks : List (String × ToolInput)
  paused : Bool

/-- Translation of the per-tool-call section of _run_streaming_loop:
walk the final message content in order, classify each tool_use block,
and stop at the first Confirm decision.  snap is the transcript
snapshot stored into a pending operation (the messages list after the
assistant content was appended). -/
def processBatch (cfg : LoopCfg) (tok : String) (snap : List Message) :
    List ABlock → BatchResult
  | [] => ⟨[], [], [], [], [], false⟩
  | .text _ :: rest => processBatch cfg tok snap rest
  | .toolUse tool_id tool_name tool_input :: rest =>
    let decision := GuardrailLayer.check tool_name tool_input
    if decision = "block" then
      let reason := GuardrailLayer.get_block_reason tool_name tool_input
      let r := processBatch cfg tok snap rest
      ⟨.toolBlocked tool_id tool_name reason :: r.events,
       .toolResult tool_id ("Blocked: " ++ reason) true :: r.results,
       r.inserts, r.execs, (tool_name, tool_input) :: r.checks, r.paused⟩
    else if decision = "confirm" then
      let risk := GuardrailLayer.get_risk_level tool_name tool_input
      let desc := GuardrailLayer.get_confirmation_message tool_name tool_input
      ⟨[.confirmationRequired tok tool_id tool_name tool_input risk desc],
       [],
       [(tok, ⟨snap, tool_id, tool_name, tool_input, cfg.mcpConnected⟩)],
       [], [(tool_name, tool_input)], true⟩
    else
      if cfg.mcpConnected then
        match cfg.exec tool_name tool_input with
        | .ok s =>
          let r := processBatch cfg tok snap rest
          ⟨.toolResult tool_id tool_name (previewOf s) false :: r.events,
           .toolResult tool_id s false :: r.results,
           r.inserts, (tool_name, tool_input) :: r.execs,
           (tool_name, tool_input) :: r.checks, r.paused⟩
        | .error e =>
          let r := processBatch cfg tok snap rest
          ⟨r.events,
           .toolResult tool_id ("Error: " ++ e) true :: r.results,
           r.inserts, (tool_name, tool_input) :: r.execs,
           (tool_name, tool_input) :: r.checks, r.paused⟩
      else
        let r := processBatch cfg tok snap rest
        ⟨r.events,
         .toolResult tool_id mcpNotConnectedMsg true :: r.results,
         r.inserts, r.execs, (tool_name, tool_input) :: r.checks, r.paused⟩

/-- Result of one loop invocation. -/
structure LoopResult where
  events : List Event
  messages : List Message
  registry : Registry
  inserts : List (String × PendingOp)
  execs : List (String × ToolInput)
  checks : List (String × ToolInput)
  roundsUsed : Nat
  outcome : Outcome

/-- Application of the recorded registry insertions. -/
def applyInserts (reg : Registry) (ins : List (String × PendingOp)) : Registry :=
  ins.foldl (fun r p => regSet r p.1 p.2) reg

/-- Hard iteration ceiling of the loop (max_tool_loops). -/
def max_tool_loops : Nat := 10

/-- Translation of the body of _run_streaming_loop: fuel counts the
remaining for-range iterations, ridx indexes the model round.  Falling
off the range, like breaking out on a non-tool-use stop reason, emits
the final stream_complete trigger. -/
def runLoopAux (cfg : LoopCfg) (tok : String) :
    Nat → Nat → List Message → Registry → LoopResult
  | 0, _, msgs, reg => ⟨[.streamComplete], msgs, reg, [], [], [], 0, .done⟩
  | n + 1, ridx, msgs, reg =>
    let round := cfg.rounds ridx
    let sEvents := round.1.filterMap rawToEvent
    match round.2 with
    | .error e =>
        ⟨sEvents ++ [.streamError e], msgs, reg, [], [], [], 1, .errored⟩
    | .ok fm =>
      if fm.stop_reason ≠ "tool_use" then
        ⟨sEvents ++ [.streamComplete], msgs, reg, [], [], [], 1, .done⟩
      else
        let msgs1 := msgs ++ [⟨"assistant", .blocks (serializeBlocks fm.content)⟩]
        let b := processBatch cfg tok msgs1 fm.content
        if b.paused then
          ⟨sEvents ++ b.events, msgs1, applyInserts reg b.inserts,
           b.inserts, b.execs, b.checks, 1, .suspended⟩
        else
          let msgs2 := if b.results.isEmpty then msgs1
            else msgs1 ++ [⟨"user", .blocks b.results⟩]
          let rest := runLoopAux cfg tok n (ridx + 1) msgs2 reg
          ⟨sEvents ++ b.events ++ rest.events, rest.messages, rest.registry,
           b.inserts ++ rest.inserts, b.execs ++ rest.execs,
           b.checks ++ rest.checks, rest.roundsUsed + 1, rest.outcome⟩

/-- Translation of _run_streaming_loop with its 10-round ceiling; tok
is the fresh confirmation token minted if this invocation suspends. -/
def run_streaming_loop (cfg : LoopCfg) (tok : String)
    (msgs : List Message) (reg : Registry) : LoopResult :=
  runLoopAux cfg tok max_tool_loops 0 msgs reg

/-! ## Operators -/

/-- Whitespace characters stripped by Python str.strip() (the ASCII
set; the scanned inputs contain no other whitespace). -/
def pyIsSpace (c : Char) : Bool :=
  c = ' ' || c = '\t' || c = '\n' || c = '\r' || c.toNat = 11 || c.toNat = 12

/-- Embedding of Python str.strip(). -/
def pyStrip (s : String) : String :=
  String.mk (((s.data.dropWhile pyIsSpace).reverse.dropWhile pyIsSpace).reverse)

/-- One raw entry of the chat history parameter. -/
structure HistEntry where
  role : Option String
  content : Option MsgContent

/-- Parameters of the send_message operator that the execute method
reads (model id, token budget and skill names are carried opaquely and
do not influence the modelled behavior). -/
structure SendParams where
  message : Option String
  history : List HistEntry

/-- Execution environment of send_message: API-key resolution outcome,
whether _get_mcp_manager yields a manager, and the loop oracles. -/
structure SendEnv where
  hasApiKey : Bool
  mcpEnabled : Bool
  rounds : Nat → List RawEvent × Except String FinalMsg
  exec : String → ToolInput → Except String String

/-- Result of one send_message invocation. -/
structure SendResult where
  events : List Event
  messages : List Message
  registry : Registry
  inserts : List (String × PendingOp)
  execs : List (String × ToolInput)
  checks : List (String × ToolInput)
  roundsUsed : Nat
  listToolsCalled : Bool

/-- Error chunk emitted when no API key is configured. -/
def noApiKeyMsg : String :=
  "Error: No API key configured. Set ANTHROPIC_API_KEY in your environment."

/-- Translation of SendMessage.execute: strip the message and return
silently when empty; report a missing API key as a one-chunk stream;
otherwise convert the history, append the user message, and run the
streaming loop. -/
def SendMessage.execute (p : SendParams) (env : SendEnv) (tok : String)
    (reg : Registry) : SendResult :=
  let message := pyStrip (p.message.getD "")
  if message = "" then
    ⟨[], [], reg, [], [], [], 0, false⟩
  else if !env.hasApiKey then
    ⟨[.streamMessageStart, .streamChunk noApiKeyMsg, .streamComplete],
     [], reg, [], [], [], 0, false⟩
  else
    let msgs0 := p.history.filterMap fun h =>
      match h.role, h.content with
      | some r, some c =>
          if r = "user" ∨ r = "assistant" then some (⟨r, c⟩ : Message) else none
      | _, _ => none
    let msgs := msgs0 ++ [⟨"user", .str message⟩]
    let cfg : LoopCfg := ⟨env.rounds, env.exec, env.mcpEnabled⟩
    let lr := run_streaming_loop cfg tok msgs reg
    ⟨.streamMessageStart :: lr.events, lr.messages, lr.registry, lr.inserts,
     lr.execs, lr.checks, lr.roundsUsed, env.mcpEnabled⟩

/-- Result of one confirm_operation invocation. -/
structure ConfirmResult where
  events : List Event
  messages : List Message
  registry : Registry
  inserts : List (String × PendingOp)
  execs : List (String × ToolInput)
  roundsUsed : Nat
  found : Bool

/-- Environment of confirm_operation: API-key resolution outcome plus
the oracles for the resumed stream; tok2 is the fresh token a further
suspension of the resumed loop would mint. -/
structure ResumeEnv where
  hasApiKey : Bool
  rounds : Nat → List RawEvent × Except String FinalMsg
  exec : String → ToolInput → Except String String

/-- Translation of ConfirmOperation.execute: pop the pending operation
(missing token is a logged no-op), execute the approved call, emit its
confirmed tool_result with the truncated preview, append the full
result to the stored transcript, and re-enter the streaming loop. -/
def ConfirmOperation.execute (env : ResumeEnv) (tok2 : String)
    (pending_id : String) (reg : Registry) : ConfirmResult :=
  match popPending reg pending_id with
  | (none, reg1) => ⟨[], [], reg1, [], [], 0, false⟩
  | (some op, reg1) =>
    let callRes : String × List (String × ToolInput) :=
      if op.mcpConnected then
        match env.exec op.tool_name op.tool_input with
        | .ok s => (s, [(op.tool_name, op.tool_input)])
        | .error e => ("Error: " ++ e, [(op.tool_name, op.tool_input)])
      else ("MCP server not connected.", [])
    let tool_result := callRes.1
    let ev1 := Event.toolResult op.tool_id op.tool_name (previewOf tool_result) true
    let msgs := op.messages ++
      [⟨"user", .blocks [.toolResult op.tool_id tool_result false]⟩]
    if !env.hasApiKey then
      ⟨[ev1, .streamComplete], msgs, reg1, [], callRes.2, 0, true⟩
    else
      let cfg : LoopCfg := ⟨env.rounds, env.exec, op.mcpConnected⟩
      let lr := run_streaming_loop cfg tok2 msgs reg1
      ⟨ev1 :: lr.events, lr.messages, lr.registry, lr.inserts,
       callRes.2 ++ lr.execs, lr.roundsUsed, true⟩

/-- Result of one cancel_operation invocation. -/
structure CancelResult where
  cancelled : Bool
  error : Option String
  registry : Registry

/-- Translation of CancelOperation.execute: pop the pending operation
without executing it; a missing token reports not-found. -/
def CancelOperation.execute (pending_id : String) (reg : Registry) : CancelResult :=
  match popPending reg pending_id with
  | (none, reg1) => ⟨false, some "No pending operation found.", reg1⟩
  | (some _, reg1) => ⟨true, none, reg1⟩

/-! ## Pairing predicate on transcripts

Formalization of the ToolUse/ToolResult pairing invariant: every
assistant message carrying tool_use blocks must be immediately followed
by a user message answering each id with exactly one tool_result. -/

/-- Ids of the tool_use blocks of a content-block list. -/
def toolUseIds : List CBlock → List String
  | [] => []
  | .toolUse i _ _ :: rest => i :: toolUseIds rest
  | _ :: rest => toolUseIds rest

/-- Ids of the tool_use blocks of a final-message content list. -/
def aIds : List ABlock → List String
  | [] => []
  | .toolUse i _ _ :: rest => i :: aIds rest
  | _ :: rest => aIds rest

/-- Recognizer of a tool_result block answering a given id. -/
def isResultFor (i : String) : CBlock → Bool
  | .toolResult j _ _ => j == i
  | _ => false

/-- Recognizer of a tool_use block carrying a given id. -/
def isUseWith (i : String) : ABlock → Bool
  | .toolUse j _ _ => j == i
  | _ => false

/-- Unanswered tool_use ids a message would leave pending: the ids of
its tool_use blocks when it is an assistant block message. -/
def msgToolUseIds (m : Message) : List String :=
  if m.role = "assistant" then
    match m.content with
    | .blocks bs => toolUseIds bs
    | .str _ => []
  else []

/-- True when the message answers each of the given ids with exactly
one tool_result block. -/
def answersIds (ids : List String) (m : Message) : Bool :=
  m.role == "user" &&
    (match m.content with
     | .blocks bs => ids.all (fun i => bs.countP (isResultFor i) == 1)
     | .str _ => ids.isEmpty)

/-- True when the second message discharges every tool_use id of the
first. -/
def stepOKb (m1 m2 : Message) : Bool :=
  (msgToolUseIds m1).isEmpty || answersIds (msgToolUseIds m1) m2

/-- The pairing invariant as a check over a whole transcript: each
adjacent pair satisfies stepOKb and the last message leaves no
tool_use id pending. -/
def pairedOK : List Message → Bool
  | [] => true
  | [m] => (msgToolUseIds m).isEmpty
  | m1 :: m2 :: rest => stepOKb m1 m2 && pairedOK (m2 :: rest)

/-! ## Event recognizers -/

/-- Recognizer of the stream_complete trigger. -/
def isCompleteE : Event → Bool
  | .streamComplete => true
  | _ => false

/-- Recognizer of the stream_error trigger. -/
def isErrorE : Event → Bool
  | .streamError _ => true
  | _ => false

/-- Recognizer of the confirmation_required trigger. -/
def isConfirmReqE : Event → Bool
  | .confirmationRequired _ _ _ _ _ _ => true
  | _ => false

/-- True when a requested block is a tool_use the guardrail classifies
as confirm. -/
def blockConfirms : ABlock → Bool
  | .text _ => false
  | .toolUse _ n i => GuardrailLayer.check n i == "confirm"

/-! ## Concrete environments and claim-side definitions -/

/-- Well-formedness of the model service: the tool_use ids it mints
within one final message are distinct (they are correlation keys). -/
def roundsWF (cfg : LoopCfg) : Prop :=
  ∀ k fm, (cfg.rounds k).2 = .ok fm → (aIds fm.content).Nodup

/-- High-risk condition as the claim states it: confirm-list
membership, or an execute_operator target containing delete, drop,
purge, or wipe. -/
def riskSpecHigh (tool_name : String) (tool_input : ToolInput) : Bool :=
  GuardrailLayer.CONFIRM_TOOL_NAMES.contains tool_name
    || (tool_name == "execute_operator"
      && (["delete", "drop", "purge", "wipe"] : List String).any
        (fun kw => containsSub (GuardrailLayer.opName tool_input) kw))

/-- Loop environment that requests the same allowed tool call on every
round, used to exercise the iteration ceiling. -/
def cfgAllowW : LoopCfg :=
  ⟨fun _ => ([], .ok ⟨"tool_use", [.toolUse "idE" "list_datasets" []]⟩),
   fun _ _ => .ok "a, b", true⟩

/-- Loop environment whose first round requests one confirm-gated tool
call, used as a concrete suspending run. -/
def cfgConfirmW : LoopCfg :=
  ⟨fun _ => ([], .ok ⟨"tool_use", [.toolUse "idA" "close_app" []]⟩),
   fun _ _ => .ok "ok", false⟩

/-- Loop environment whose first round requests a confirm-gated call
followed by a second tool call in the same model response. -/
def cfgCex : LoopCfg :=
  ⟨fun n => if n = 0
    then ([], .ok ⟨"tool_use",
      [.toolUse "id1" "close_app" [], .toolUse "id2" "list_datasets" []]⟩)
    else ([], .ok ⟨"end_turn", []⟩),
   fun _ _ => .ok "ok", false⟩

/-- Resume environment whose stream ends immediately. -/
def envCex : ResumeEnv :=
  ⟨true, fun _ => ([], .ok ⟨"end_turn", []⟩), fun _ _ => .ok "ok"⟩

/-- Loop environment whose stream ends immediately with no tool use. -/
def cfgEndW : LoopCfg :=
  ⟨fun _ => ([], .ok ⟨"end_turn", []⟩), fun _ _ => .ok "", false⟩

/-- Result string of 5000 characters. -/
def s5000 : String := String.mk (List.replicate 5000 'a')

/-- Loop environment whose tool execution returns the 5000-character
result. -/
def cfgTruncW : LoopCfg :=
  ⟨fun _ => ([], .ok ⟨"end_turn", []⟩), fun _ _ => .ok s5000, true⟩

/-- Concrete pending operation for the C8 witness. -/
def opW : PendingOp := ⟨[], "idG", "close_app", [], false⟩

/-- Resume environment for the C8 witness. -/
def envW : ResumeEnv :=
  ⟨true, fun _ => ([], .ok ⟨"end_turn", []⟩), fun _ _ => .ok "ok"⟩

/-- Send environment for the C10 witness. -/
def envSendW : SendEnv :=
  ⟨true, true, fun _ => ([], .ok ⟨"end_turn", []⟩), fun _ _ => .ok "ok"⟩

/-! ## Helper lemmas about batch processing -/

theorem processBatch_spec (cfg : LoopCfg) (tok : String) (snap : List Message)
    (bs : List ABlock) :
    (∀ e ∈ (processBatch cfg tok snap bs).events,
        isCompleteE e = false ∧ isErrorE e = false)
    ∧ ((processBatch cfg tok snap bs).paused = true →
        ∃ op, (processBatch cfg tok snap bs).inserts = [(tok, op)]
          ∧ (processBatch cfg tok snap bs).events.countP isConfirmReqE = 1)
    ∧ ((processBatch cfg tok snap bs).paused = false →
        (processBatch cfg tok snap bs).inserts = []
          ∧ (processBatch cfg tok snap bs).events.countP isConfirmReqE = 0)
    ∧ ((processBatch cfg tok snap bs).paused = false →
        ∀ i, (processBatch cfg tok snap bs).results.countP (isResultFor i)
          = bs.countP (isUseWith i))
    ∧ ((processBatch cfg tok snap bs).paused = false →
        (processBatch cfg tok snap bs).results.length = (aIds bs).length) := by
  induction bs with
  | nil =>
    refine ⟨?_, ?_, ?_, ?_, ?_⟩ <;> simp [processBatch, aIds]
  | cons b rest ih =>
    obtain ⟨ih1, ih2, ih3, ih4, ih5⟩ := ih
    cases b with
    | text s =>
      refine ⟨?_, ?_, ?_, ?_, ?_⟩
      · simpa [processBatch] using ih1
      · simpa [processBatch] using ih2
      · simpa [processBatch] using ih3
      · simpa [processBatch, aIds, isUseWith] using ih4
      · simpa [processBatch, aIds] using ih5
    | toolUse tid name input =>
      by_cases hb : GuardrailLayer.check name input = "block"
      · refine ⟨?_, ?_, ?_, ?_, ?_⟩
        · intro e he
          simp only [processBatch, hb, if_pos] at he
          rcases List.mem_cons.mp he with h | h
          · subst h; exact ⟨rfl, rfl⟩
          · exact ih1 e h
        · intro hp
          simp only [processBatch, hb, if_pos] at hp ⊢
          obtain ⟨op, h1, h2⟩ := ih2 hp
          exact ⟨op, h1, by simpa [isConfirmReqE] using h2⟩
        · intro hp
          simp only [processBatch, hb, if_pos] at hp ⊢
          obtain ⟨h1, h2⟩ := ih3 hp
          exact ⟨h1, by simpa [isConfirmReqE] using h2⟩
        · intro hp i
          simp only [processBatch, hb, if_pos] at hp ⊢
          simp [List.countP_cons, ih4 hp i, isResultFor, isUseWith]
        · intro hp
          simp only [processBatch, hb, if_pos] at hp ⊢
          simp [aIds, ih5 hp]
      · by_cases hc : GuardrailLayer.check name input = "confirm"
        · refine ⟨?_, ?_, ?_, ?_, ?_⟩
          · intro e he
            simp only [processBatch, hb, hc, if_neg, if_pos] at he
            simp at he
            subst he; exact ⟨rfl, rfl⟩
          · intro _
            simp only [processBatch, hb, hc, if_neg, if_pos]
            refine ⟨_, rfl, ?_⟩
            simp [isConfirmReqE]
          · intro hp
            simp only [processBatch, hb, hc, if_neg, if_pos] at hp
            simp at hp
          · intro hp
            simp only [processBatch, hb, hc, if_neg, if_pos] at hp
            simp at hp
          · intro hp
            simp only [processBatch, hb, hc, if_neg, if_pos] at hp
            simp at hp
        · by_cases hm : cfg.mcpConnected
          · cases he : cfg.exec name input with
            | ok s =>
              refine ⟨?_, ?_, ?_, ?_, ?_⟩
              · intro e hev
                simp only [processBatch, hb, hc, hm, he, if_neg, if_pos] at hev
                rcases List.mem_cons.mp hev with h | h
                · subst h; exact ⟨rfl, rfl⟩
                · exact ih1 e h
              · intro hp
                simp only [processBatch, hb, hc, hm, he, if_neg, if_pos] at hp ⊢
                obtain ⟨op, h1, h2⟩ := ih2 hp
                exact ⟨op, h1, by simpa [isConfirmReqE] using h2⟩
              · intro hp
                simp only [processBatch, hb, hc, hm, he, if_neg, if_pos] at hp ⊢
                obtain ⟨h1, h2⟩ := ih3 hp
                exact ⟨h1, by simpa [isConfirmReqE] using h2⟩
              · intro hp i
                simp only [processBatch, hb, hc, hm, he, if_neg, if_pos] at hp ⊢
                simp [List.countP_cons, ih4 hp i, isResultFor, isUseWith]
              · intro hp
                simp only [processBatch, hb, hc, hm, he, if_neg, if_pos] at hp ⊢
                simp [aIds, ih5 hp]
            | error er =>
              refine ⟨?_, ?_, ?_, ?_, ?_⟩
              · intro e hev
                simp only [processBatch, hb, hc, hm, he, if_neg, if_pos] at hev
                exact ih1 e hev
              · intro hp
                simp only [processBatch, hb, hc, hm, he, if_neg, if_pos] at hp ⊢
                exact ih2 hp
              · intro hp
                simp only [processBatch, hb, hc, hm, he, if_neg, if_pos] at hp ⊢
                exact ih3 hp
              · intro hp i
                simp only [processBatch, hb, hc, hm, he, if_neg, if_pos] at hp ⊢
                simp [List.countP_cons, ih4 hp i, isResultFor, isUseWith]
              · intro hp
                simp only [processBatch, hb, hc, hm, he, if_neg, if_pos] at hp ⊢
                simp [aIds, ih5 hp]
          · refine ⟨?_, ?_, ?_, ?_, ?_⟩
            · intro e hev
              simp only [processBatch, hb, hc, hm, if_neg, if_pos] at hev
              exact ih1 e hev
            · intro hp
              simp only [processBatch, hb, hc, hm, if_neg, if_pos] at hp ⊢
              exact ih2 hp
            · intro hp
              simp only [processBatch, hb, hc, hm, if_neg, if_pos] at hp ⊢
              exact ih3 hp
            · intro hp i
              simp only [processBatch, hb, hc, hm, if_neg, if_pos] at hp ⊢
              simp [List.countP_cons, ih4 hp i, isResultFor, isUseWith]
            · intro hp
              simp only [processBatch, hb, hc, hm, if_neg, if_pos] at hp ⊢
              simp [aIds, ih5 hp]

theorem rawEvents_plain (raw : List RawEvent) :
    ∀ e ∈ raw.filterMap rawToEvent,
      isCompleteE e = false ∧ isErrorE e = false ∧ isConfirmReqE e = false := by
  intro e he
  rcases List.mem_filterMap.mp he with ⟨r, _, hr⟩
  cases r <;> simp [rawToEvent] at hr <;> subst hr <;>
    exact ⟨rfl, rfl, rfl⟩

theorem processBatch_paused_snap (cfg : LoopCfg) (tok : String)
    (s1 s2 : List Message) (bs : List ABlock) :
    (processBatch cfg tok s1 bs).paused = (processBatch cfg tok s2 bs).paused := by
  induction bs with
  | nil => rfl
  | cons b rest ih =>
    cases b with
    | text s => simpa [processBatch] using ih
    | toolUse tid name input =>
      by_cases hb : GuardrailLayer.check name input = "block"
      · simpa [processBatch, hb] using ih
      · by_cases hc : GuardrailLayer.check name input = "confirm"
        · simp [processBatch, hb, hc]
        · by_cases hm : cfg.mcpConnected
          · cases he : cfg.exec name input with
            | ok s => simpa [processBatch, hb, hc, hm, he] using ih
            | error er => simpa [processBatch, hb, hc, hm, he] using ih
          · simpa [processBatch, hb, hc, hm] using ih

theorem toolUseIds_serialize (bs : List ABlock) :
    toolUseIds (serializeBlocks bs) = aIds bs := by
  induction bs with
  | nil => rfl
  | cons b rest ih =>
    cases b <;> simp [serializeBlocks, toolUseIds, aIds] at ih ⊢ <;> exact ih

theorem countP_isUseWith_eq_count (i : String) (bs : List ABlock) :
    bs.countP (isUseWith i) = (aIds bs).count i := by
  induction bs with
  | nil => rfl
  | cons b rest ih =>
    cases b with
    | text s => simp [aIds, List.countP_cons, isUseWith, ih]
    | toolUse j n inp =>
      simp only [aIds, List.countP_cons, List.count_cons, isUseWith, ih]

theorem pairedOK_append_one (xs : List Message) (a : Message)
    (hx : pairedOK xs = true) (ha : msgToolUseIds a = []) :
    pairedOK (xs ++ [a]) = true := by
  induction xs with
  | nil => simp [pairedOK, ha]
  | cons m rest ih =>
    cases rest with
    | nil =>
      simp only [pairedOK] at hx
      simp [pairedOK, stepOKb, hx, ha]
    | cons m2 rest2 =>
      simp only [pairedOK, Bool.and_eq_true] at hx
      simp only [List.cons_append, pairedOK]
      have := ih hx.2
      simp only [List.cons_append] at this
      simp [hx.1, this]

theorem pairedOK_append_pair (xs : List Message) (a u : Message)
    (hx : pairedOK xs = true) (hau : stepOKb a u = true)
    (hu : msgToolUseIds u = []) :
    pairedOK (xs ++ [a, u]) = true := by
  induction xs with
  | nil => simp [pairedOK, hau, hu]
  | cons m rest ih =>
    cases rest with
    | nil =>
      simp only [pairedOK] at hx
      have hma : stepOKb m a = true := by simp [stepOKb, hx]
      simp [pairedOK, hma, hau, hu]
    | cons m2 rest2 =>
      simp only [pairedOK, Bool.and_eq_true] at hx
      simp only [List.cons_append, pairedOK]
      have := ih hx.2
      simp only [List.cons_append] at this
      simp [hx.1, this]

/-! ## Helper lemmas about the registry -/

theorem lookupReg_filter_none (reg : Registry) (t : String)
    (q : String × PendingOp → Bool) (h : lookupReg reg t = none) :
    lookupReg (reg.filter q) t = none := by
  induction reg with
  | nil => rfl
  | cons p rest ih =>
    simp only [lookupReg, List.find?] at h
    by_cases hk : p.1 == t
    · simp [hk] at h
    · simp only [hk] at h
      have hrest := ih (by simpa [lookupReg] using h)
      by_cases hq : q p <;>
        simpa [List.filter, hq, lookupReg, List.find?, hk] using hrest

theorem lookupReg_erase_self (reg : Registry) (t : String) :
    lookupReg (eraseReg reg t) t = none := by
  induction reg with
  | nil => rfl
  | cons p rest ih =>
    by_cases hk : p.1 == t
    · simp only [eraseReg, List.filter, hk, Bool.not_true] at ih ⊢
      exact ih
    · simp only [eraseReg, List.filter, hk, Bool.not_false, lookupReg,
        List.find?] at ih ⊢
      exact ih

theorem lookupReg_regSet_ne (reg : Registry) (t u : String) (op : PendingOp)
    (ht : lookupReg reg t = none) (hne : t ≠ u) :
    lookupReg (regSet reg u op) t = none := by
  have hu : (u == t) = false := by
    simp [beq_iff_eq]
    exact fun h => hne h.symm
  simp only [regSet, lookupReg, List.find?, hu]
  exact lookupReg_filter_none reg t _ ht

/-! ## Helper lemmas about the loop -/

theorem runLoopAux_registry (cfg : LoopCfg) (tok : String) :
    ∀ n ridx msgs reg, (runLoopAux cfg tok n ridx msgs reg).registry = reg
      ∨ ∃ op, (runLoopAux cfg tok n ridx msgs reg).registry = regSet reg tok op := by
  intro n
  induction n with
  | zero => intro ridx msgs reg; left; rfl
  | succ n ih =>
    intro ridx msgs reg
    simp only [runLoopAux]
    split
    · left; rfl
    · next fm hfm =>
      split
      · left; rfl
      · split
        · next hpaused =>
          right
          obtain ⟨op, hins, _⟩ :=
            (processBatch_spec cfg tok _ fm.content).2.1 hpaused
          exact ⟨op, by simp [applyInserts, hins]⟩
        · exact ih (ridx + 1) _ reg

theorem runLoopAux_roundsUsed_le (cfg : LoopCfg) (tok : String) :
    ∀ n ridx msgs reg, (runLoopAux cfg tok n ridx msgs reg).roundsUsed ≤ n := by
  intro n
  induction n with
  | zero => intro ridx msgs reg; exact Nat.le_refl 0
  | succ n ih =>
    intro ridx msgs reg
    simp only [runLoopAux]
    split
    · exact Nat.succ_le_succ (Nat.zero_le n)
    · split
      · exact Nat.succ_le_succ (Nat.zero_le n)
      · split
        · exact Nat.succ_le_succ (Nat.zero_le n)
        · exact Nat.succ_le_succ (ih (ridx + 1) _ reg)

theorem sEvents_complete_count (raw : List RawEvent) :
    (raw.filterMap rawToEvent).countP isCompleteE = 0 :=
  List.countP_eq_zero.mpr fun e he => by
    simp [(rawEvents_plain raw e he).1]

theorem sEvents_error_count (raw : List RawEvent) :
    (raw.filterMap rawToEvent).countP isErrorE = 0 :=
  List.countP_eq_zero.mpr fun e he => by
    simp [(rawEvents_plain raw e he).2.1]

theorem sEvents_confirm_count (raw : List RawEvent) :
    (raw.filterMap rawToEvent).countP isConfirmReqE = 0 :=
  List.countP_eq_zero.mpr fun e he => by
    simp [(rawEvents_plain raw e he).2.2]

theorem batch_complete_count (cfg : LoopCfg) (tok : String) (snap : List Message)
    (bs : List ABlock) :
    (processBatch cfg tok snap bs).events.countP isCompleteE = 0 :=
  List.countP_eq_zero.mpr fun e he => by
    simp [((processBatch_spec cfg tok snap bs).1 e he).1]

theorem batch_error_count (cfg : LoopCfg) (tok : String) (snap : List Message)
    (bs : List ABlock) :
    (processBatch cfg tok snap bs).events.countP isErrorE = 0 :=
  List.countP_eq_zero.mpr fun e he => by
    simp [((processBatch_spec cfg tok snap bs).1 e he).2]

theorem runLoopAux_terminal (cfg : LoopCfg) (tok : String) :
    ∀ n ridx msgs reg,
      ((runLoopAux cfg tok n ridx msgs reg).events.countP isCompleteE = 1
        ∧ (runLoopAux cfg tok n ridx msgs reg).events.countP isErrorE = 0
        ∧ (runLoopAux cfg tok n ridx msgs reg).outcome = .done)
      ∨ ((runLoopAux cfg tok n ridx msgs reg).events.countP isErrorE = 1
        ∧ (runLoopAux cfg tok n ridx msgs reg).events.countP isCompleteE = 0
        ∧ (runLoopAux cfg tok n ridx msgs reg).outcome = .errored)
      ∨ ((runLoopAux cfg tok n ridx msgs reg).events.countP isCompleteE = 0
        ∧ (runLoopAux cfg tok n ridx msgs reg).events.countP isErrorE = 0
        ∧ (runLoopAux cfg tok n ridx msgs reg).outcome = .suspended) := by
  intro n
  induction n with
  | zero =>
    intro ridx msgs reg
    left
    exact ⟨rfl, rfl, rfl⟩
  | succ n ih =>
    intro ridx msgs reg
    simp only [runLoopAux]
    split
    · right; left
      refine ⟨?_, ?_, rfl⟩ <;>
        simp [List.countP_append, sEvents_complete_count, sEvents_error_count,
          isCompleteE, isErrorE]
    · next fm hfm =>
      split
      · left
        refine ⟨?_, ?_, rfl⟩ <;>
          simp [List.countP_append, sEvents_complete_count, sEvents_error_count,
            isCompleteE, isErrorE]
      · split
        · right; right
          refine ⟨?_, ?_, rfl⟩ <;>
            simp [List.countP_append, sEvents_complete_count, sEvents_error_count,
              batch_complete_count, batch_error_count]
        · set msgs1 := msgs ++
            [(⟨"assistant", .blocks (serializeBlocks fm.content)⟩ : Message)]
            with hmsgs1
          set b := processBatch cfg tok msgs1 fm.content with hbval
          set M := (if b.results.isEmpty = true then msgs1
            else msgs1 ++ [(⟨"user", .blocks b.results⟩ : Message)]) with hM
          set rest := runLoopAux cfg tok n (ridx + 1) M reg with hrest
          have e1 := sEvents_complete_count (cfg.rounds ridx).1
          have e2 := sEvents_error_count (cfg.rounds ridx).1
          have b1 := batch_complete_count cfg tok msgs1 fm.content
          have b2 := batch_error_count cfg tok msgs1 fm.content
          rw [← hbval] at b1 b2
          have hrec := ih (ridx + 1) M reg
          rw [← hrest] at hrec
          rcases hrec with ⟨h1, h2, h3⟩ | ⟨h1, h2, h3⟩ | ⟨h1, h2, h3⟩
          · left
            refine ⟨?_, ?_, h3⟩ <;>
              simp [List.countP_append, e1, e2, b1, b2, h1, h2]
          · right; left
            refine ⟨?_, ?_, h3⟩ <;>
              simp [List.countP_append, e1, e2, b1, b2, h1, h2]
          · right; right
            refine ⟨?_, ?_, h3⟩ <;>
              simp [List.countP_append, e1, e2, b1, b2, h1, h2]

theorem runLoopAux_suspend_counts (cfg : LoopCfg) (tok : String) :
    ∀ n ridx msgs reg,
      (runLoopAux cfg tok n ridx msgs reg).outcome = .suspended →
      (runLoopAux cfg tok n ridx msgs reg).events.countP isConfirmReqE = 1
      ∧ (runLoopAux cfg tok n ridx msgs reg).inserts.length = 1
      ∧ (runLoopAux cfg tok n ridx msgs reg).events.countP isCompleteE = 0 := by
  intro n
  induction n with
  | zero =>
    intro ridx msgs reg h
    simp only [runLoopAux] at h
    exact absurd h (by simp)
  | succ n ih =>
    intro ridx msgs reg
    simp only [runLoopAux]
    split
    · intro h; exact absurd h (by simp)
    · next fm hfm =>
      split
      · intro h; exact absurd h (by simp)
      · split
        · next hpaused =>
          intro _
          obtain ⟨op, hins, hcnt⟩ :=
            (processBatch_spec cfg tok _ fm.content).2.1 hpaused
          refine ⟨?_, ?_, ?_⟩
          · simp [List.countP_append, sEvents_confirm_count, hcnt]
          · simp [hins]
          · simp [List.countP_append, sEvents_complete_count,
              batch_complete_count]
        · next hnp =>
          set msgs1 := msgs ++
            [(⟨"assistant", .blocks (serializeBlocks fm.content)⟩ : Message)]
            with hmsgs1
          set b := processBatch cfg tok msgs1 fm.content with hbval
          set M := (if b.results.isEmpty = true then msgs1
            else msgs1 ++ [(⟨"user", .blocks b.results⟩ : Message)]) with hM
          set rest := runLoopAux cfg tok n (ridx + 1) M reg with hrest
          intro h
          have hb3 := (processBatch_spec cfg tok msgs1 fm.content).2.2.1
            (by simpa using Bool.eq_false_iff.mpr hnp)
          rw [← hbval] at hb3
          have hrec := ih (ridx + 1) M reg (by simpa using h)
          rw [← hrest] at hrec
          obtain ⟨h1, h2, h3⟩ := hrec
          refine ⟨?_, ?_, ?_⟩
          · simp [List.countP_append, sEvents_confirm_count, hb3.2, h1]
          · simp [hb3.1, h2]
          · have b1 := batch_complete_count cfg tok msgs1 fm.content
            rw [← hbval] at b1
            simp [List.countP_append, sEvents_complete_count, b1, h3]

theorem runLoopAux_full (cfg : LoopCfg) (tok : String)
    (hall : ∀ k, ∃ fm, (cfg.rounds k).2 = .ok fm ∧ fm.stop_reason = "tool_use"
      ∧ (processBatch cfg tok [] fm.content).paused = false) :
    ∀ n ridx msgs reg,
      (runLoopAux cfg tok n ridx msgs reg).roundsUsed = n
      ∧ (runLoopAux cfg tok n ridx msgs reg).outcome = .done := by
  intro n
  induction n with
  | zero => intro ridx msgs reg; exact ⟨rfl, rfl⟩
  | succ n ih =>
    intro ridx msgs reg
    obtain ⟨fm, hok, hstop, hnp⟩ := hall ridx
    simp only [runLoopAux]
    split
    · next e he =>
      rw [hok] at he
      exact Except.noConfusion he
    · next fm2 hfm2 =>
      rw [hok] at hfm2
      injection hfm2 with hfm2
      subst hfm2
      split
      · next hne => exact absurd hstop hne
      · split
        · next hp =>
          have h2 : (processBatch cfg tok [] fm.content).paused = true :=
            (processBatch_paused_snap cfg tok [] _ fm.content).trans hp
          rw [hnp] at h2
          exact Bool.noConfusion h2
        · set msgs1 := msgs ++
            [(⟨"assistant", .blocks (serializeBlocks fm.content)⟩ : Message)]
            with hmsgs1
          set b := processBatch cfg tok msgs1 fm.content with hbval
          set M := (if b.results.isEmpty = true then msgs1
            else msgs1 ++ [(⟨"user", .blocks b.results⟩ : Message)]) with hM
          set rest := runLoopAux cfg tok n (ridx + 1) M reg with hrest
          have hrec := ih (ridx + 1) M reg
          rw [← hrest] at hrec
          exact ⟨by simp [hrec.1], hrec.2⟩

theorem runLoopAux_paired (cfg : LoopCfg) (tok : String) (hwf : roundsWF cfg) :
    ∀ n ridx msgs reg, pairedOK msgs = true →
      (runLoopAux cfg tok n ridx msgs reg).outcome ≠ .suspended →
      pairedOK (runLoopAux cfg tok n ridx msgs reg).messages = true := by
  intro n
  induction n with
  | zero => intro ridx msgs reg hp _; exact hp
  | succ n ih =>
    intro ridx msgs reg hp hns
    rcases hr2 : (cfg.rounds ridx).2 with e | fm
    · simp only [runLoopAux, hr2] at hns ⊢
      exact hp
    · by_cases hstop : fm.stop_reason = "tool_use"
      · by_cases hpause : (processBatch cfg tok
            (msgs ++ [(⟨"assistant", .blocks (serializeBlocks fm.content)⟩ : Message)])
            fm.content).paused = true
        · simp only [runLoopAux, hr2, hstop, hpause, ne_eq, not_true_eq_false,
            if_false, if_true, ite_true, ite_false] at hns
        · have hbf : (processBatch cfg tok
              (msgs ++ [(⟨"assistant", .blocks (serializeBlocks fm.content)⟩ : Message)])
              fm.content).paused = false := by
            exact Bool.eq_false_iff.mpr hpause
          simp only [runLoopAux, hr2, hstop, hbf, ne_eq, not_true_eq_false,
            if_false, Bool.false_eq_true, ite_false] at hns ⊢
          set msgs1 := msgs ++
            [(⟨"assistant", .blocks (serializeBlocks fm.content)⟩ : Message)]
            with hmsgs1
          set b := processBatch cfg tok msgs1 fm.content with hbval
          set M := (if b.results.isEmpty = true then msgs1
            else msgs1 ++ [(⟨"user", .blocks b.results⟩ : Message)]) with hM
          have hMp : pairedOK M = true := by
            rw [hM]
            by_cases hre : b.results.isEmpty = true
            · rw [if_pos hre, hmsgs1]
              apply pairedOK_append_one _ _ hp
              have hlen := (processBatch_spec cfg tok msgs1 fm.content).2.2.2.2
                (by rw [← hbval]; exact hbf)
              rw [← hbval] at hlen
              have : (aIds fm.content).length = 0 := by
                rw [← hlen]
                exact List.length_eq_zero.mpr (List.isEmpty_iff.mp hre)
              have hnil : aIds fm.content = [] := List.length_eq_zero.mp this
              simp [msgToolUseIds, toolUseIds_serialize, hnil]
            · rw [if_neg hre]
              have heq : msgs1 ++ [(⟨"user", .blocks b.results⟩ : Message)]
                  = msgs ++ [(⟨"assistant", .blocks (serializeBlocks fm.content)⟩ : Message),
                    (⟨"user", .blocks b.results⟩ : Message)] := by
                rw [hmsgs1, List.append_assoc]
                rfl
              rw [heq]
              apply pairedOK_append_pair _ _ _ hp
              · have hids : msgToolUseIds
                    (⟨"assistant", .blocks (serializeBlocks fm.content)⟩ : Message)
                    = aIds fm.content := by
                  simp [msgToolUseIds, toolUseIds_serialize]
                have hans : answersIds (aIds fm.content)
                    (⟨"user", .blocks b.results⟩ : Message) = true := by
                  rw [answersIds]
                  refine Bool.and_eq_true_iff.mpr ⟨rfl, ?_⟩
                  apply List.all_eq_true.mpr
                  intro i hi
                  have hcnt := (processBatch_spec cfg tok msgs1 fm.content).2.2.2.1
                    (by rw [← hbval]; exact hbf) i
                  rw [← hbval] at hcnt
                  have h1 : (aIds fm.content).count i = 1 :=
                    List.count_eq_one_of_mem (hwf ridx fm hr2) hi
                  simp [hcnt, countP_isUseWith_eq_count, h1]
                rw [stepOKb, hids]
                simp [hans]
              · simp [msgToolUseIds]
          exact ih (ridx + 1) M reg hMp hns
      · simp only [runLoopAux, hr2]
        rw [if_pos hstop]
        exact hp

theorem processBatch_stops_at_confirm (cfg : LoopCfg) (tok : String)
    (snap : List Message) (pre : List ABlock) (tid name : String)
    (input : ToolInput) (post : List ABlock)
    (hpre : ∀ b ∈ pre, blockConfirms b = false)
    (hc : GuardrailLayer.check name input = "confirm") :
    processBatch cfg tok snap (pre ++ ABlock.toolUse tid name input :: post)
      = processBatch cfg tok snap (pre ++ [ABlock.toolUse tid name input]) := by
  induction pre with
  | nil =>
    have hnb : ¬GuardrailLayer.check name input = "block" := by simp [hc]
    simp [processBatch, hc, hnb]
  | cons b pre ih =>
    have hb := hpre b (List.mem_cons_self b pre)
    have hrest : ∀ x ∈ pre, blockConfirms x = false :=
      fun x hx => hpre x (List.mem_cons_of_mem b hx)
    have ih2 := ih hrest
    cases b with
    | text s => simpa [processBatch] using ih2
    | toolUse tid2 n2 i2 =>
      have hnc : ¬GuardrailLayer.check n2 i2 = "confirm" := by
        intro h
        rw [blockConfirms] at hb
        simp [h] at hb
      by_cases hb2 : GuardrailLayer.check n2 i2 = "block"
      · simp [processBatch, hb2, ih2]
      · by_cases hm : cfg.mcpConnected
        · cases he : cfg.exec n2 i2 with
          | ok s => simp [processBatch, hb2, hnc, hm, he, ih2]
          | error er => simp [processBatch, hb2, hnc, hm, he, ih2]
        · simp [processBatch, hb2, hnc, hm, ih2]

theorem pyStrip_all_space (s : String) (h : ∀ c ∈ s.data, pyIsSpace c = true) :
    pyStrip s = "" := by
  rw [pyStrip]
  have h1 : s.data.dropWhile pyIsSpace = [] :=
    List.dropWhile_eq_nil_iff.mpr (fun c hc => h c hc)
  rw [h1]
  rfl

theorem run_streaming_loop_lookup_none (cfg : LoopCfg) (tok : String)
    (msgs : List Message) (reg : Registry) (t : String)
    (h : lookupReg reg t = none) (hne : t ≠ tok) :
    lookupReg (run_streaming_loop cfg tok msgs reg).registry t = none := by
  rcases runLoopAux_registry cfg tok max_tool_loops 0 msgs reg with hr | ⟨op2, hr⟩
  · rw [run_streaming_loop, hr]
    exact h
  · rw [run_streaming_loop, hr]
    exact lookupReg_regSet_ne reg t tok op2 h hne

theorem confirm_not_found (env : ResumeEnv) (tok2 t : String) (reg : Registry)
    (h : lookupReg reg t = none) :
    ConfirmOperation.execute env tok2 t reg
      = ⟨[], [], reg, [], [], 0, false⟩ := by
  simp [ConfirmOperation.execute, popPending, h]

/-! ## Claim theorems -/

/-- C3: GuardrailLayer.check applies its tiers in strict priority
order: Block on block-list membership; otherwise Block when the
lowercase JSON serialization of the arguments contains one of the
dangerous substrings; otherwise Confirm on confirm-list membership;
otherwise Confirm when the tool is execute_operator and the lowercase
operator name contains a mutating keyword; otherwise Allow. -/
theorem C3_guardrail_priority_order (tool_name : String) (tool_input : ToolInput) :
    (GuardrailLayer.BLOCKED_TOOL_NAMES.contains tool_name = true →
      GuardrailLayer.check tool_name tool_input = "block")
    ∧ (GuardrailLayer.BLOCKED_TOOL_NAMES.contains tool_name = false →
      GuardrailLayer.inputHit tool_input = true →
      GuardrailLayer.check tool_name tool_input = "block")
    ∧ (GuardrailLayer.BLOCKED_TOOL_NAMES.contains tool_name = false →
      GuardrailLayer.inputHit tool_input = false →
      GuardrailLayer.CONFIRM_TOOL_NAMES.contains tool_name = true →
      GuardrailLayer.check tool_name tool_input = "confirm")
    ∧ (GuardrailLayer.BLOCKED_TOOL_NAMES.contains tool_name = false →
      GuardrailLayer.inputHit tool_input = false →
      GuardrailLayer.CONFIRM_TOOL_NAMES.contains tool_name = false →
      tool_name = "execute_operator" →
      GuardrailLayer.opKwHit tool_input = true →
      GuardrailLayer.check tool_name tool_input = "confirm")
    ∧ (GuardrailLayer.BLOCKED_TOOL_NAMES.contains tool_name = false →
      GuardrailLayer.inputHit tool_input = false →
      GuardrailLayer.CONFIRM_TOOL_NAMES.contains tool_name = false →
      (tool_name ≠ "execute_operator" ∨ GuardrailLayer.opKwHit tool_input = false) →
      GuardrailLayer.check tool_name tool_input = "allow") := by
  refine ⟨?_, ?_, ?_, ?_, ?_⟩
  · intro h1
    rw [GuardrailLayer.check, if_pos h1]
  · intro h1 h2
    rw [GuardrailLayer.check, if_neg (Bool.eq_false_iff.mp h1), if_pos h2]
  · intro h1 h2 h3
    rw [GuardrailLayer.check, if_neg (Bool.eq_false_iff.mp h1),
      if_neg (Bool.eq_false_iff.mp h2), if_pos h3]
  · intro h1 h2 h3 h4 h5
    rw [GuardrailLayer.check, if_neg (Bool.eq_false_iff.mp h1),
      if_neg (Bool.eq_false_iff.mp h2), if_neg (Bool.eq_false_iff.mp h3),
      if_pos ⟨h4, h5⟩]
  · intro h1 h2 h3 h4
    rw [GuardrailLayer.check, if_neg (Bool.eq_false_iff.mp h1),
      if_neg (Bool.eq_false_iff.mp h2), if_neg (Bool.eq_false_iff.mp h3),
      if_neg ?_]
    intro hand
    rcases h4 with h4 | h4
    · exact h4 hand.1
    · exact absurd hand.2 (Bool.eq_false_iff.mp h4)

/-- Witness for C3 at one concrete input per tier: a block-listed name,
a dangerous argument substring, a confirm-listed name, a mutating
execute_operator target, and a harmless call. -/
theorem C3_guardrail_priority_witness :
    GuardrailLayer.check "drop_database" [] = "block"
    ∧ GuardrailLayer.check "find" [("q", .str "DROP TABLE users")] = "block"
    ∧ GuardrailLayer.check "close_app" [] = "confirm"
    ∧ GuardrailLayer.check "execute_operator"
        [("operator_name", .str "delete_samples")] = "confirm"
    ∧ GuardrailLayer.check "execute_operator"
        [("operator_name", .str "list_samples")] = "allow" :=
  ⟨(C3_guardrail_priority_order "drop_database" []).1 (by decide),
   (C3_guardrail_priority_order "find" [("q", .str "DROP TABLE users")]).2.1
     (by decide) (by decide),
   (C3_guardrail_priority_order "close_app" []).2.2.1
     (by decide) (by decide) (by decide),
   (C3_guardrail_priority_order "execute_operator"
       [("operator_name", .str "delete_samples")]).2.2.2.1
     (by decide) (by decide) (by decide) rfl (by decide),
   (C3_guardrail_priority_order "execute_operator"
       [("operator_name", .str "list_samples")]).2.2.2.2
     (by decide) (by decide) (by decide) (Or.inr (by decide))⟩

/-- C9: for every tool call that receives a Confirm decision, the
reported risk level is high exactly when the tool name is in the
confirm-list or the execute_operator operator name contains delete,
drop, purge, or wipe, and medium in every other Confirm case. -/
theorem C9_confirm_risk_level (tool_name : String) (tool_input : ToolInput)
    (h : GuardrailLayer.check tool_name tool_input = "confirm") :
    GuardrailLayer.get_risk_level tool_name tool_input
      = (if riskSpecHigh tool_name tool_input then "high" else "medium") := by
  rw [GuardrailLayer.check] at h
  by_cases h1 : GuardrailLayer.BLOCKED_TOOL_NAMES.contains tool_name = true
  · rw [if_pos h1] at h
    exact absurd h (by decide)
  · rw [if_neg h1] at h
    by_cases h2 : GuardrailLayer.inputHit tool_input = true
    · rw [if_pos h2] at h
      exact absurd h (by decide)
    · rw [if_neg h2] at h
      by_cases h3 : GuardrailLayer.CONFIRM_TOOL_NAMES.contains tool_name = true
      · have hrs : riskSpecHigh tool_name tool_input = true := by
          simp only [riskSpecHigh, h3, Bool.true_or]
        rw [GuardrailLayer.get_risk_level, if_pos h3, hrs, if_pos rfl]
      · rw [if_neg h3] at h
        by_cases h4 : tool_name = "execute_operator"
          ∧ GuardrailLayer.opKwHit tool_input = true
        · obtain ⟨h4a, _⟩ := h4
          subst h4a
          have h3f : GuardrailLayer.CONFIRM_TOOL_NAMES.contains
              "execute_operator" = false := by decide
          rw [GuardrailLayer.get_risk_level, if_neg h3]
          unfold riskSpecHigh
          rw [h3f]
          simp only [Bool.false_or, beq_self_eq_true, Bool.true_and]
        · rw [if_neg h4] at h
          exact absurd h (by decide)

/-- Witness for C9 at two Confirm cases: a confirm-listed tool (high)
and a mutating-but-recoverable operator (medium). -/
theorem C9_confirm_risk_witness :
    GuardrailLayer.get_risk_level "close_app" []
      = (if riskSpecHigh "close_app" [] then "high" else "medium")
    ∧ GuardrailLayer.get_risk_level "execute_operator"
        [("operator_name", .str "clear_cache")]
      = (if riskSpecHigh "execute_operator"
          [("operator_name", .str "clear_cache")] then "high" else "medium") :=
  ⟨C9_confirm_risk_level "close_app" [] (by decide),
   C9_confirm_risk_level "execute_operator"
     [("operator_name", .str "clear_cache")] (by decide)⟩

/-- C7: MCPClientManager.call_tool always returns a string and never
raises: a raised connection or execution failure is absorbed into a
textual error message, and a tool result with no textual content
segments yields the literal (no output) marker. -/
theorem C7_call_tool_total (name : String) (outcome : CallOutcome) :
    (∃ s, MCPClientManager.call_tool name outcome = s)
    ∧ (∀ e, outcome = .raised e →
      MCPClientManager.call_tool name outcome
        = "Error calling " ++ name ++ ": " ++ e)
    ∧ (∀ segs, outcome = .ok segs → segs.filterMap Segment.textOf = [] →
      MCPClientManager.call_tool name outcome = "(no output)") := by
  refine ⟨⟨MCPClientManager.call_tool name outcome, rfl⟩, ?_, ?_⟩
  · intro e he
    subst he
    rfl
  · intro segs hs hnone
    subst hs
    simp [MCPClientManager.call_tool, MCPClientManager.async_call_tool, hnone,
      String.intercalate]
    decide

/-- Witness for C7: a raised failure becomes an error string, and a
result with only non-textual segments becomes (no output). -/
theorem C7_call_tool_witness :
    MCPClientManager.call_tool "list_datasets" (.raised "boom")
      = "Error calling " ++ "list_datasets" ++ ": " ++ "boom"
    ∧ MCPClientManager.call_tool "list_datasets" (.ok [Segment.nonText])
      = "(no output)" :=
  ⟨(C7_call_tool_total "list_datasets" (.raised "boom")).2.1 "boom" rfl,
   (C7_call_tool_total "list_datasets" (.ok [Segment.nonText])).2.2
     [Segment.nonText] rfl rfl⟩

/-- C4: every invocation of the streaming loop performs at most 10
model round-trips, and when the model requests a further
non-suspending tool call on every round, exactly 10 rounds occur and
the invocation then ends. -/
theorem C4_round_ceiling :
    (∀ cfg tok msgs reg,
      (run_streaming_loop cfg tok msgs reg).roundsUsed ≤ max_tool_loops)
    ∧ (∀ cfg tok msgs reg,
      (∀ k, ∃ fm, (cfg.rounds k).2 = .ok fm ∧ fm.stop_reason = "tool_use"
        ∧ (processBatch cfg tok [] fm.content).paused = false) →
      (run_streaming_loop cfg tok msgs reg).roundsUsed = max_tool_loops
      ∧ (run_streaming_loop cfg tok msgs reg).outcome = .done) := by
  constructor
  · intro cfg tok msgs reg
    exact runLoopAux_roundsUsed_le cfg tok max_tool_loops 0 msgs reg
  · intro cfg tok msgs reg hall
    exact runLoopAux_full cfg tok hall max_tool_loops 0 msgs reg

/-- Witness for C4: the always-tool-use environment forces exactly 10
rounds and ends. -/
theorem C4_round_ceiling_witness :
    (run_streaming_loop cfgAllowW "tokB" [⟨"user", .str "list datasets"⟩] []).roundsUsed
      = max_tool_loops
    ∧ (run_streaming_loop cfgAllowW "tokB" [⟨"user", .str "list datasets"⟩] []).outcome
      = .done :=
  C4_round_ceiling.2 cfgAllowW "tokB" [⟨"user", .str "list datasets"⟩] []
    (fun k => ⟨⟨"tool_use", [.toolUse "idE" "list_datasets" []]⟩, rfl, rfl,
      by decide⟩)

/-- C5: each invocation of the streaming loop emits exactly one
stream_complete and no stream_error, or exactly one stream_error and
no stream_complete, or neither when the invocation suspends for
confirmation. -/
theorem C5_terminal_event_trichotomy (cfg : LoopCfg) (tok : String)
    (msgs : List Message) (reg : Registry) :
    ((run_streaming_loop cfg tok msgs reg).events.countP isCompleteE = 1
      ∧ (run_streaming_loop cfg tok msgs reg).events.countP isErrorE = 0
      ∧ (run_streaming_loop cfg tok msgs reg).outcome = .done)
    ∨ ((run_streaming_loop cfg tok msgs reg).events.countP isErrorE = 1
      ∧ (run_streaming_loop cfg tok msgs reg).events.countP isCompleteE = 0
      ∧ (run_streaming_loop cfg tok msgs reg).outcome = .errored)
    ∨ ((run_streaming_loop cfg tok msgs reg).events.countP isCompleteE = 0
      ∧ (run_streaming_loop cfg tok msgs reg).events.countP isErrorE = 0
      ∧ (run_streaming_loop cfg tok msgs reg).outcome = .suspended) :=
  runLoopAux_terminal cfg tok max_tool_loops 0 msgs reg

/-- C2: a suspended invocation emits exactly one confirmation_required
event, inserts exactly one pending operation, and emits no
stream_complete; and processing a batch stops at the first Confirm
decision, so the calls after it in the same model response are never
reached. -/
theorem C2_confirm_suspension_behavior :
    (∀ cfg tok msgs reg,
      (run_streaming_loop cfg tok msgs reg).outcome = .suspended →
      (run_streaming_loop cfg tok msgs reg).events.countP isConfirmReqE = 1
      ∧ (run_streaming_loop cfg tok msgs reg).inserts.length = 1
      ∧ (run_streaming_loop cfg tok msgs reg).events.countP isCompleteE = 0)
    ∧ (∀ cfg tok snap pre tid name input post,
      (∀ b ∈ pre, blockConfirms b = false) →
      GuardrailLayer.check name input = "confirm" →
      processBatch cfg tok snap (pre ++ ABlock.toolUse tid name input :: post)
        = processBatch cfg tok snap (pre ++ [ABlock.toolUse tid name input])) := by
  constructor
  · intro cfg tok msgs reg h
    exact runLoopAux_suspend_counts cfg tok max_tool_loops 0 msgs reg h
  · intro cfg tok snap pre tid name input post hpre hc
    exact processBatch_stops_at_confirm cfg tok snap pre tid name input post hpre hc

/-- Witness for C2: the suspending run emits one confirmation_required,
inserts one pending operation, emits no stream_complete, and a batch
with calls after the confirm equals the batch truncated at the
confirm. -/
theorem C2_confirm_suspension_witness :
    ((run_streaming_loop cfgConfirmW "tokA" [⟨"user", .str "hi"⟩] []).events.countP
        isConfirmReqE = 1
      ∧ (run_streaming_loop cfgConfirmW "tokA" [⟨"user", .str "hi"⟩] []).inserts.length = 1
      ∧ (run_streaming_loop cfgConfirmW "tokA" [⟨"user", .str "hi"⟩] []).events.countP
        isCompleteE = 0)
    ∧ processBatch cfgConfirmW "tokA" []
        ([ABlock.toolUse "idB" "list_datasets" []]
          ++ ABlock.toolUse "idC" "close_app" [] :: [ABlock.toolUse "idD" "list_datasets" []])
      = processBatch cfgConfirmW "tokA" []
        ([ABlock.toolUse "idB" "list_datasets" []] ++ [ABlock.toolUse "idC" "close_app" []]) :=
  ⟨C2_confirm_suspension_behavior.1 cfgConfirmW "tokA" [⟨"user", .str "hi"⟩] [] rfl,
   C2_confirm_suspension_behavior.2 cfgConfirmW "tokA" []
     [ABlock.toolUse "idB" "list_datasets" []] "idC" "close_app" []
     [ABlock.toolUse "idD" "list_datasets" []] (by decide) (by decide)⟩

/-- C1 (amended): for every run of the streaming loop that does not
suspend for confirmation, starting from a transcript satisfying the
pairing invariant, and with the model service minting distinct
tool_use ids per message, the produced transcript satisfies the
pairing invariant: every tool_use id of an assistant message is
answered by exactly one tool_result in the immediately following user
message. -/
theorem C1_pairing_invariant_no_suspension (cfg : LoopCfg) (tok : String)
    (msgs : List Message) (reg : Registry)
    (hwf : roundsWF cfg) (hp : pairedOK msgs = true)
    (hns : (run_streaming_loop cfg tok msgs reg).outcome ≠ .suspended) :
    pairedOK (run_streaming_loop cfg tok msgs reg).messages = true :=
  runLoopAux_paired cfg tok hwf max_tool_loops 0 msgs reg hp hns

/-- Counterexample to C1 as stated: a turn that suspends on the first
(confirm) call of a two-call batch and is later resumed produces a
transcript whose assistant message carries tool_use id2 with no
matching tool_result in the following user message, and the resumed
invocation still issues a model round on that transcript. -/
theorem C1_counterexample_confirm_drops_pairing :
    pairedOK (ConfirmOperation.execute envCex "tok1" "tok0"
      (run_streaming_loop cfgCex "tok0" [⟨"user", .str "hi"⟩] []).registry).messages
      = false
    ∧ (ConfirmOperation.execute envCex "tok1" "tok0"
      (run_streaming_loop cfgCex "tok0" [⟨"user", .str "hi"⟩] []).registry).roundsUsed
      = 1 :=
  ⟨rfl, rfl⟩

/-- Witness for the amended C1 at a completing run. -/
theorem C1_pairing_witness :
    pairedOK (run_streaming_loop cfgEndW "tokF" [⟨"user", .str "hi"⟩] []).messages
      = true :=
  C1_pairing_invariant_no_suspension cfgEndW "tokF" [⟨"user", .str "hi"⟩] []
    (fun k fm hfm => by
      simp only [cfgEndW] at hfm
      injection hfm with h
      subst h
      exact List.nodup_nil)
    rfl
    (by decide)

/-- C6: an allowed tool call whose result exceeds 2000 characters is
emitted to the caller as a preview of exactly the first 2000
characters, while the transcript block keeps the full text; a result
of at most 2000 characters is emitted verbatim. -/
theorem C6_result_truncation (cfg : LoopCfg) (tok : String) (snap : List Message)
    (tid name : String) (input : ToolInput) (s : String)
    (hAllow : GuardrailLayer.check name input = "allow")
    (hMcp : cfg.mcpConnected = true)
    (hExec : cfg.exec name input = .ok s) :
    (processBatch cfg tok snap [ABlock.toolUse tid name input]).events
      = [Event.toolResult tid name (previewOf s) false]
    ∧ (processBatch cfg tok snap [ABlock.toolUse tid name input]).results
      = [CBlock.toolResult tid s false]
    ∧ (2000 < s.length → previewOf s = String.mk (s.data.take 2000)
        ∧ (previewOf s).length = 2000)
    ∧ (s.length ≤ 2000 → previewOf s = s) := by
  have hnb : ¬GuardrailLayer.check name input = "block" := by simp [hAllow]
  have hnc : ¬GuardrailLayer.check name input = "confirm" := by simp [hAllow]
  refine ⟨?_, ?_, ?_, ?_⟩
  · simp [processBatch, hnb, hnc, hMcp, hExec]
  · simp [processBatch, hnb, hnc, hMcp, hExec]
  · intro hlen
    constructor
    · rw [previewOf, if_pos hlen]
    · rw [previewOf, if_pos hlen]
      have h1 : (String.mk (s.data.take 2000)).length = (s.data.take 2000).length := rfl
      rw [h1, List.length_take]
      exact Nat.min_eq_left (Nat.le_of_lt hlen)
  · intro hle
    rw [previewOf, if_neg (by omega)]

/-- Witness for C6 at a 5000-character result: the emitted preview is
exactly the first 2000 characters while the transcript block keeps the
full text. -/
theorem C6_result_truncation_witness :
    (processBatch cfgTruncW "tokC" [] [ABlock.toolUse "idF" "list_datasets" []]).events
      = [Event.toolResult "idF" "list_datasets" (previewOf s5000) false]
    ∧ (processBatch cfgTruncW "tokC" [] [ABlock.toolUse "idF" "list_datasets" []]).results
      = [CBlock.toolResult "idF" s5000 false]
    ∧ previewOf s5000 = String.mk (s5000.data.take 2000)
    ∧ (previewOf s5000).length = 2000 :=
  have h := C6_result_truncation cfgTruncW "tokC" [] "idF" "list_datasets" [] s5000
    (by decide) rfl rfl
  have h2 := h.2.2.1 (by
    have hl : s5000.length = 5000 := by
      show (List.replicate 5000 'a').length = 5000
      rw [List.length_replicate]
    omega)
  ⟨h.1, h.2.1, h2.1, h2.2⟩

/-- C8: a pending-operation token is consumable at most once: a token
absent from the registry makes resume and cancel not-found no-ops that
execute nothing and leave the registry unchanged, and a present token
is removed by the first resume or cancel, so a second attempt on the
same token is a not-found no-op. -/
theorem C8_token_single_use (env env2 : ResumeEnv) (t tok2 tok3 : String)
    (reg : Registry) :
    (lookupReg reg t = none →
      (ConfirmOperation.execute env tok2 t reg).found = false
      ∧ (ConfirmOperation.execute env tok2 t reg).events = []
      ∧ (ConfirmOperation.execute env tok2 t reg).execs = []
      ∧ (ConfirmOperation.execute env tok2 t reg).registry = reg
      ∧ (CancelOperation.execute t reg).cancelled = false
      ∧ (CancelOperation.execute t reg).registry = reg)
    ∧ (∀ op, lookupReg reg t = some op → t ≠ tok2 →
      (ConfirmOperation.execute env tok2 t reg).found = true
      ∧ lookupReg (ConfirmOperation.execute env tok2 t reg).registry t = none
      ∧ (CancelOperation.execute t reg).cancelled = true
      ∧ lookupReg (CancelOperation.execute t reg).registry t = none
      ∧ (ConfirmOperation.execute env2 tok3 t
          (ConfirmOperation.execute env tok2 t reg).registry).found = false
      ∧ (ConfirmOperation.execute env2 tok3 t
          (ConfirmOperation.execute env tok2 t reg).registry).execs = []) := by
  constructor
  · intro h
    rw [confirm_not_found env tok2 t reg h]
    refine ⟨rfl, rfl, rfl, rfl, ?_, ?_⟩
    · simp [CancelOperation.execute, popPending, h]
    · simp [CancelOperation.execute, popPending, h]
  · intro op hsome hne
    have hpop : popPending reg t = (some op, eraseReg reg t) := by
      simp [popPending, hsome]
    have hmain : (ConfirmOperation.execute env tok2 t reg).found = true
        ∧ lookupReg (ConfirmOperation.execute env tok2 t reg).registry t = none := by
      simp only [ConfirmOperation.execute, hpop]
      by_cases hk : env.hasApiKey = true
      · simp only [hk, Bool.not_true, Bool.false_eq_true, if_false, ite_false]
        exact ⟨by trivial, run_streaming_loop_lookup_none _ tok2 _ _ t
          (lookupReg_erase_self reg t) hne⟩
      · have hkf : env.hasApiKey = false := Bool.eq_false_iff.mpr hk
        simp only [hkf, Bool.not_false, if_true, ite_true]
        exact ⟨by trivial, lookupReg_erase_self reg t⟩
    have hcancel : (CancelOperation.execute t reg).cancelled = true
        ∧ lookupReg (CancelOperation.execute t reg).registry t = none := by
      simp only [CancelOperation.execute, hpop]
      exact ⟨by trivial, lookupReg_erase_self reg t⟩
    have hsecond := confirm_not_found env2 tok3 t
      (ConfirmOperation.execute env tok2 t reg).registry hmain.2
    refine ⟨hmain.1, hmain.2, hcancel.1, hcancel.2, ?_, ?_⟩
    · rw [hsecond]
    · rw [hsecond]

/-- Witness for C8 on a one-entry registry: an unknown token is a
not-found no-op, and a known token is consumed by the first resume,
making a second resume a not-found no-op. -/
theorem C8_token_single_use_witness :
    ((ConfirmOperation.execute envW "tokH" "t2" [("t1", opW)]).found = false
      ∧ (ConfirmOperation.execute envW "tokH" "t2" [("t1", opW)]).execs = [])
    ∧ ((ConfirmOperation.execute envW "tokH" "t1" [("t1", opW)]).found = true
      ∧ lookupReg (ConfirmOperation.execute envW "tokH" "t1" [("t1", opW)]).registry "t1"
        = none
      ∧ (CancelOperation.execute "t1" [("t1", opW)]).cancelled = true
      ∧ (ConfirmOperation.execute envW "tokI" "t1"
          (ConfirmOperation.execute envW "tokH" "t1" [("t1", opW)]).registry).found
        = false) :=
  have h1 := (C8_token_single_use envW envW "t2" "tokH" "tokI" [("t1", opW)]).1 rfl
  have h2 := (C8_token_single_use envW envW "t1" "tokH" "tokI" [("t1", opW)]).2
    opW rfl (by decide)
  ⟨⟨h1.1, h1.2.2.1⟩, ⟨h2.1, h2.2.1, h2.2.2.1, h2.2.2.2.2.1⟩⟩

/-- C10: a send_message invocation whose message parameter is absent,
empty, or only whitespace terminates immediately: it emits no events
and consults neither the guardrail, the model service, nor the tool
connector, leaving the registry unchanged. -/
theorem C10_empty_message_noop (p : SendParams) (env : SendEnv) (tok : String)
    (reg : Registry)
    (h : p.message = none
      ∨ ∃ s, p.message = some s ∧ ∀ c ∈ s.data, pyIsSpace c = true) :
    (SendMessage.execute p env tok reg).events = []
    ∧ (SendMessage.execute p env tok reg).roundsUsed = 0
    ∧ (SendMessage.execute p env tok reg).checks = []
    ∧ (SendMessage.execute p env tok reg).execs = []
    ∧ (SendMessage.execute p env tok reg).listToolsCalled = false
    ∧ (SendMessage.execute p env tok reg).registry = reg
    ∧ (SendMessage.execute p env tok reg).inserts = [] := by
  have hstrip : pyStrip (p.message.getD "") = "" := by
    rcases h with h | ⟨s, hs, hsp⟩
    · rw [h]
      rfl
    · rw [hs]
      exact pyStrip_all_space s hsp
  simp [SendMessage.execute, hstrip]

/-- Witness for C10 at a whitespace-only message. -/
theorem C10_empty_message_witness :
    (SendMessage.execute ⟨some "   ", []⟩ envSendW "tokJ" []).events = []
    ∧ (SendMessage.execute ⟨some "   ", []⟩ envSendW "tokJ" []).roundsUsed = 0
    ∧ (SendMessage.execute ⟨some "   ", []⟩ envSendW "tokJ" []).checks = []
    ∧ (SendMessage.execute ⟨some "   ", []⟩ envSendW "tokJ" []).execs = []
    ∧ (SendMessage.execute ⟨some "   ", []⟩ envSendW "tokJ" []).listToolsCalled = false
    ∧ (SendMessage.execute ⟨some "   ", []⟩ envSendW "tokJ" []).registry = []
    ∧ (SendMessage.execute ⟨some "   ", []⟩ envSendW "tokJ" []).inserts = [] :=
  C10_empty_message_noop ⟨some "   ", []⟩ envSendW "tokJ" []
    (Or.inr ⟨"   ", rfl, by decide⟩)
